import Mathlib

/-!
Shallow embedding of the real-time MIDI/audio bridge of the `y` repository
(`src/bin/vst_host.rs`, `src/bin/main.rs`): the MIDI event codec
(`midi_event_from_raw_midi`), the batch delivery path (`send_midi`), the
per-period callback installed on the transport, the port-registration
arithmetic in `main`, and models of the Rust `Vec` storage reuse and of the
vst crate function `HostBuffer::bind`.

Machine integers are modelled as `Nat`/`Int` with explicit wrapping where the
source casts; panicking operations return `Option` (with `none` for a panic).
-/

/-- Raw MIDI message (`jack::RawMidi`) delivered by the transport.
`time` is the `u32` intra-period frame offset, `bytes` the message bytes. -/
structure RawMidi where
  time : Nat
  bytes : List Nat
deriving Repr, DecidableEq

/-- Reinterpret a `u32` value as an `i32`, as the Rust cast `as i32` does
(wrap modulo 2 to the 32). -/
def u32_as_i32 (n : Nat) : Int :=
  if n % 2 ^ 32 < 2 ^ 31 then (n % 2 ^ 32 : Int) else (n % 2 ^ 32 : Int) - 2 ^ 32

/-- Fixed-layout plugin event record (`vst::api::MidiEvent`).
Field order follows the vst crate declaration (`event_type`, `byte_size`,
`delta_frames`, `flags`, `note_length`, `note_offset`, `midi_data`,
`_midi_reserved`, `detune`, `note_off_velocity`, `_reserved1`, `_reserved2`).
`delta_frames` is the intra-period frame offset field. -/
structure MidiEvent where
  event_type : Nat
  byte_size : Int
  delta_frames : Int
  flags : Int
  note_length : Int
  note_offset : Int
  midi_data : List Nat
  midi_reserved : Nat
  detune : Int
  note_off_velocity : Nat
  reserved1 : Nat
  reserved2 : Nat
deriving Repr, DecidableEq

/-- Discriminant of `vst::api::EventType::Midi` (`#[repr(i32)]`, `Midi = 1`). -/
def eventTypeMidi : Nat := 1

/-- Value of `std::mem::size_of::<vst::api::MidiEvent>()`: six `i32` fields, the 3-byte
data array, and five single-byte fields = 24 + 8 = 32 bytes. -/
def midiEventByteSize : Int := 32

/-- Encoder `midi_event_from_raw_midi` (identical in `vst_host.rs` and `main.rs`).
`midi_data[..raw_midi.bytes.len()].copy_from_slice(raw_midi.bytes)` panics
when the message is longer than the 3-byte array (range end out of bounds),
modelled as `none`; otherwise the data is the message bytes followed by the
remaining zeros of the `[0, 0, 0]` initializer. The source writes
`delta_frames: 0` and `note_offset: raw_midi.time as i32`. -/
def midi_event_from_raw_midi (raw_midi : RawMidi) : Option MidiEvent :=
  if raw_midi.bytes.length ≤ 3 then
    some
      { event_type := eventTypeMidi
        byte_size := midiEventByteSize
        delta_frames := 0
        flags := 0
        note_length := 0
        note_offset := u32_as_i32 raw_midi.time
        midi_data := raw_midi.bytes ++ List.replicate (3 - raw_midi.bytes.length) 0
        midi_reserved := 0
        detune := 0
        note_off_velocity := 0
        reserved1 := 0
        reserved2 := 0 }
  else none

/-- Inner loop of the callback for one MIDI port: encode each pending message
in arrival order and push it onto `midi_events`; an encoding panic unwinds
(`none`). -/
def drainPort : List RawMidi → List MidiEvent → Option (List MidiEvent)
  | [], acc => some acc
  | m :: rest, acc =>
    match midi_event_from_raw_midi m with
    | none => none
    | some e => drainPort rest (acc ++ [e])

/-- Outer loop of the callback: iterate ports in registration (index) order. -/
def drainPorts : List (List RawMidi) → List MidiEvent → Option (List MidiEvent)
  | [], acc => some acc
  | p :: ps, acc =>
    match drainPort p acc with
    | none => none
    | some acc2 => drainPorts ps acc2

/-- Result of `midi_events.clear()` followed by the drain loops of the callback:
the batch built from all pending messages across all MIDI ports. -/
def drainMidi (ports : List (List RawMidi)) : Option (List MidiEvent) :=
  drainPorts ports []

/-- The `vst::api::Events` block that `send_midi` assembles in
`events_buffer`: the `u64` count header, the zero reserved word, then the
event records (the source stores pointers to them; the records themselves
stand in for the pointers). -/
structure VstEvents where
  num_events : Nat
  reserved : Nat
  events : List MidiEvent
deriving Repr, DecidableEq

/-- Function `send_midi`: when the batch is non-empty, clear and refill
`events_buffer` with `[num_events as u64, 0, ptrs...]` and call
`plugin.process_events`; when empty, do nothing (`none` = no call made). -/
def send_midi (midi_events : List MidiEvent) : Option VstEvents :=
  if midi_events.length > 0 then
    some
      { num_events := midi_events.length % 2 ^ 64
        reserved := 0
        events := midi_events }
  else none

/-- Observable plugin entry-point invocations made by one callback body. -/
inductive PluginCall where
  | processEvents (ev : VstEvents)
  | process
deriving Repr, DecidableEq

/-- Whether a call is an event delivery (`process_events`). -/
def PluginCall.isDeliver : PluginCall → Bool
  | .processEvents _ => true
  | .process => false

/-- The per-period callback body of `vst_host.rs`: drain all MIDI ports into
the batch, `send_midi` (which calls `process_events` only for a non-empty
batch), then bind buffers and `plugin.process`. A panic while encoding
unwinds out of the callback (`none`); otherwise the trace of plugin calls is
returned. -/
def callback (ports : List (List RawMidi)) : Option (List PluginCall) :=
  match drainMidi ports with
  | none => none
  | some es =>
    some
      ((match send_midi es with
        | some ev => [PluginCall.processEvents ev]
        | none => []) ++ [PluginCall.process])

/-- The fields of `plugin.get_info()` used for port registration (`i32`). -/
structure PluginInfo where
  inputs : Int
  outputs : Int
  midi_inputs : Int
deriving Repr, DecidableEq

/-- Number of iterations of a Rust `0..n` range over `i32`. -/
def rustRangeLen (n : Int) : Nat := n.toNat

/-- Addition on `i32`; overflow panics (`none`). -/
def i32_add (a b : Int) : Option Int :=
  if -(2 ^ 31) ≤ a + b ∧ a + b < 2 ^ 31 then some (a + b) else none

/-- Ports registered by `(0..plugin_info.inputs).map(register_port)`. -/
def num_input_ports (info : PluginInfo) : Nat := rustRangeLen info.inputs

/-- Ports registered by `(0..plugin_info.outputs).map(register_port)`. -/
def num_output_ports (info : PluginInfo) : Nat := rustRangeLen info.outputs

/-- Ports registered by
`(0..plugin_info.midi_inputs + args.extra_midi_in as i32).map(register_port)`
(the cast is the identity: `extra_midi_in` is already `i32`). -/
def num_midi_input_ports (info : PluginInfo) (extra_midi_in : Int) : Option Nat :=
  (i32_add info.midi_inputs extra_midi_in).map rustRangeLen

/-- Length and allocated capacity of a Rust `Vec`, modelling the retained
batch storage: `midi_events` in both drivers and `events_buffer` in
`vst_host.rs`. The `events_buffer` of `main.rs` is not retained and is
modelled separately by `send_midi_main`. Element contents are irrelevant to
the allocation claims. -/
structure RustVec where
  len : Nat
  cap : Nat
deriving Repr, DecidableEq

/-- Minimum `RawVec` non-zero capacity in Rust for element sizes between 2 and
1024 bytes (`MidiEvent` is 32 bytes, `u64` is 8). -/
def minNonZeroCap : Nat := 4

/-- Rust `Vec::clear`: length becomes 0, the allocation is retained. -/
def RustVec.clear (v : RustVec) : RustVec := ⟨0, v.cap⟩

/-- Rust `Vec::push`: reuses spare capacity; when full, grows amortized
(`max(2 * cap, required)`, at least the minimum non-zero capacity). -/
def RustVec.push (v : RustVec) : RustVec :=
  if v.len < v.cap then ⟨v.len + 1, v.cap⟩
  else ⟨v.len + 1, max minNonZeroCap (max (2 * v.cap) (v.len + 1))⟩

/-- Apply `n` consecutive pushes. -/
def RustVec.pushN (v : RustVec) : Nat → RustVec
  | 0 => v
  | n + 1 => v.push.pushN n

/-- Use of the retained batch vector `midi_events` by one callback:
`clear()` then one push per drained event (`n` of them). The `events_buffer`
of `vst_host.rs` is likewise cleared and refilled in place each delivery;
the `events_buffer` of `main.rs` follows a different, non-retained pattern
modelled by `send_midi_main`. -/
def callbackBatch (v : RustVec) (n : Nat) : RustVec := (v.clear).pushN n

/-- A sequence of callbacks with the given per-callback event counts. -/
def runCallbacks (v : RustVec) (counts : List Nat) : RustVec :=
  counts.foldl callbackBatch v

/-- Allocation activity on the real-time thread during one delivery call. -/
inductive AllocEvent where
  | alloc (words : Nat)
  | free (words : Nat)
deriving Repr, DecidableEq

/-- Function `send_midi` of `main.rs` (lines 186-204): unlike the
`vst_host.rs` variant it takes no reusable buffer argument; for a non-empty
batch it collects a fresh local `Vec<u64>` of `2 + n` words (`[count, 0]`
chained with the `n` event pointers), calls `process_events`, and drops the
vector when the call returns; for an empty batch nothing is allocated and no
call is made. The second component records the allocator activity of the
call. -/
def send_midi_main (midi_events : List MidiEvent) :
    Option VstEvents × List AllocEvent :=
  if midi_events.length > 0 then
    (some
      { num_events := midi_events.length % 2 ^ 64
        reserved := 0
        events := midi_events },
     [AllocEvent.alloc (2 + midi_events.length),
      AllocEvent.free (2 + midi_events.length)])
  else (none, [])

/-- State of `vst::host::HostBuffer`: capacities fixed at construction from the
declared channel counts of the plugin, plus the per-callback bound channel views
(the source stores raw pointers; the pointed-to channel contents stand in
for the pointers). -/
structure HostBuffer where
  input_capacity : Nat
  output_capacity : Nat
  inputs : List (List Int)
  outputs : List (List Int)
deriving Repr, DecidableEq

/-- The `AudioBuffer` handle `bind` returns: borrowed views of the channel
data, no copies. -/
structure AudioBuffer where
  inputs : List (List Int)
  outputs : List (List Int)
deriving Repr, DecidableEq

/-- Binding function `HostBuffer::bind`: panics (`none`) when more channels are supplied than
the construction-time capacity; otherwise overwrites the stored channel
views with the supplied ones and hands back a borrowed `AudioBuffer`. The
sample data itself is passed through untouched. -/
def HostBuffer.bind (hb : HostBuffer) (ins outs : List (List Int)) :
    Option (HostBuffer × AudioBuffer) :=
  if ins.length ≤ hb.input_capacity ∧ outs.length ≤ hb.output_capacity then
    some
      ({ input_capacity := hb.input_capacity
         output_capacity := hb.output_capacity
         inputs := ins
         outputs := outs },
       { inputs := ins, outputs := outs })
  else none

/-- Call `plugin.process(&mut audio_buffer)`: the plugin reads the bound input
channels and overwrites the bound output channels in place; `plug` is the
(opaque) transfer function of the plugin from input channels to output channels. -/
def processPlugin (plug : List (List Int) → List (List Int))
    (buf : AudioBuffer) : List (List Int) :=
  plug buf.inputs

/-- Helper: the encoder succeeds exactly on messages of at most 3 bytes. -/
theorem midi_event_from_raw_midi_isSome (m : RawMidi) :
    (midi_event_from_raw_midi m).isSome = true ↔ m.bytes.length ≤ 3 := by
  unfold midi_event_from_raw_midi
  by_cases h : m.bytes.length ≤ 3 <;> simp [h]

/-- C1: the claim states that the transport offset `t` is carried, verbatim
and unclamped, in the intra-period frame offset field (`delta_frames`) of the
`MidiEvent` record. The code instead writes `0` into `delta_frames` and
stores the offset in the `note_offset` field: at offset 10 with message
`[0x90, 60, 0x7F]`, the produced record has `delta_frames = 0 ≠ 10` and
`note_offset = 10`. -/
theorem offset_lands_in_note_offset_not_delta_frames :
    (midi_event_from_raw_midi ⟨10, [144, 60, 127]⟩).map MidiEvent.delta_frames
      = some 0 ∧
    (midi_event_from_raw_midi ⟨10, [144, 60, 127]⟩).map MidiEvent.note_offset
      = some 10 := by
  exact ⟨rfl, rfl⟩

/-- C2: the claim states that a message longer than 3 bytes is truncated to
the 3-byte slot and encoding completes normally. In the code,
`midi_data[..raw_midi.bytes.len()].copy_from_slice(raw_midi.bytes)` panics
for a 4-byte message (range end 4 out of range for a slice of length 3), so
encoding does not complete and the panic unwinds out of the callback: on the
4-byte system-exclusive message `[0xF0, 0x01, 0x02, 0xF7]` the encoder
aborts (`none`) instead of truncating. -/
theorem encode_panics_on_four_byte_message :
    midi_event_from_raw_midi ⟨0, [240, 1, 2, 247]⟩ = none := by
  rfl

/-- C4: for a message of at most 3 bytes, the encoded record carries exactly
the source bytes right-padded with zeros to a 3-byte data field, and its
record-size field equals the fixed record size constant
(`size_of::<MidiEvent>()`). -/
theorem encode_pad_and_record_size (m : RawMidi) (h : m.bytes.length ≤ 3) :
    ∃ e, midi_event_from_raw_midi m = some e ∧
      e.midi_data = m.bytes ++ List.replicate (3 - m.bytes.length) 0 ∧
      e.midi_data.length = 3 ∧
      e.byte_size = midiEventByteSize := by
  unfold midi_event_from_raw_midi
  rw [if_pos h]
  refine ⟨_, rfl, rfl, ?_, rfl⟩
  simp only [List.length_append, List.length_replicate]
  omega

/-- Witness for C4 at the spec example `[0x90, 60, 0x7F]` at offset 5. -/
theorem encode_pad_and_record_size_witness :
    (RawMidi.mk 5 [144, 60, 127]).bytes.length ≤ 3 ∧
    (∃ e, midi_event_from_raw_midi ⟨5, [144, 60, 127]⟩ = some e ∧
      e.midi_data = [144, 60, 127] ++ List.replicate (3 - 3) 0 ∧
      e.midi_data.length = 3 ∧
      e.byte_size = midiEventByteSize) :=
  ⟨by decide, encode_pad_and_record_size ⟨5, [144, 60, 127]⟩ (by decide)⟩

/-- Helper: draining one port appends exactly one encoded event per pending
message, in arrival order. -/
theorem drainPort_spec (msgs : List RawMidi) (acc : List MidiEvent)
    (h : ∀ m ∈ msgs, m.bytes.length ≤ 3) :
    ∃ es, drainPort msgs acc = some (acc ++ es) ∧
      List.Forall₂ (fun m e => midi_event_from_raw_midi m = some e) msgs es := by
  induction msgs generalizing acc with
  | nil => exact ⟨[], by simp [drainPort], List.Forall₂.nil⟩
  | cons m rest ih =>
    have hm : m.bytes.length ≤ 3 := h m (List.mem_cons_self m rest)
    obtain ⟨e, he⟩ :=
      Option.isSome_iff_exists.mp ((midi_event_from_raw_midi_isSome m).mpr hm)
    obtain ⟨es, hd, hf⟩ := ih (acc ++ [e]) fun x hx => h x (List.mem_cons_of_mem m hx)
    refine ⟨e :: es, ?_, List.Forall₂.cons he hf⟩
    simp only [drainPort, he]
    rw [hd]
    simp

/-- Helper: draining all ports appends one encoded event per message, ports
in registration order and messages in arrival order within each port. -/
theorem drainPorts_spec (ports : List (List RawMidi)) (acc : List MidiEvent)
    (h : ∀ p ∈ ports, ∀ m ∈ p, m.bytes.length ≤ 3) :
    ∃ es, drainPorts ports acc = some (acc ++ es) ∧
      List.Forall₂ (fun m e => midi_event_from_raw_midi m = some e)
        ports.flatten es := by
  induction ports generalizing acc with
  | nil => exact ⟨[], by simp [drainPorts], by simp⟩
  | cons p ps ih =>
    obtain ⟨es1, hd1, hf1⟩ := drainPort_spec p acc (h p (List.mem_cons_self p ps))
    obtain ⟨es2, hd2, hf2⟩ :=
      ih (acc ++ es1) fun q hq => h q (List.mem_cons_of_mem p hq)
    refine ⟨es1 ++ es2, ?_, ?_⟩
    · simp only [drainPorts, hd1]
      rw [hd2]
      simp
    · simpa using List.rel_append hf1 hf2

/-- C3: for pending messages of at most 3 bytes each, the drained batch has
exactly one encoded event per message (none dropped, none added), ordered by
port index ascending then arrival order within each port (the flattening of
the per-port arrival sequences), and the count header `send_midi` writes
equals the number of encoded events. -/
theorem encode_batch_order_and_count (ports : List (List RawMidi))
    (h : ∀ p ∈ ports, ∀ m ∈ p, m.bytes.length ≤ 3)
    (hcnt : ports.flatten.length < 2 ^ 64) :
    ∃ es, drainMidi ports = some es ∧
      List.Forall₂ (fun m e => midi_event_from_raw_midi m = some e)
        ports.flatten es ∧
      es.length = ports.flatten.length ∧
      (0 < es.length → send_midi es = some ⟨es.length, 0, es⟩) := by
  obtain ⟨es, hd, hf⟩ := drainPorts_spec ports [] h
  have hlen : ports.flatten.length = es.length := List.Forall₂.length_eq hf
  refine ⟨es, by simpa [drainMidi] using hd, hf, hlen.symm, ?_⟩
  intro hpos
  unfold send_midi
  rw [if_pos hpos]
  have : es.length % 2 ^ 64 = es.length := Nat.mod_eq_of_lt (hlen ▸ hcnt)
  rw [this]

/-- Witness for C3 at the spec two-port example: `[0x90, 60, 0x7F]` at offset
10 on port 0 and `[0x80, 60, 0x00]` at offset 20 on port 1. -/
theorem encode_batch_order_and_count_witness :
    (∀ p ∈ [[RawMidi.mk 10 [144, 60, 127]], [RawMidi.mk 20 [128, 60, 0]]],
      ∀ m ∈ p, m.bytes.length ≤ 3) ∧
    ([[RawMidi.mk 10 [144, 60, 127]],
      [RawMidi.mk 20 [128, 60, 0]]].flatten.length < 2 ^ 64) ∧
    (∃ es,
      drainMidi [[RawMidi.mk 10 [144, 60, 127]], [RawMidi.mk 20 [128, 60, 0]]]
        = some es ∧
      List.Forall₂ (fun m e => midi_event_from_raw_midi m = some e)
        [[RawMidi.mk 10 [144, 60, 127]],
         [RawMidi.mk 20 [128, 60, 0]]].flatten es ∧
      es.length =
        [[RawMidi.mk 10 [144, 60, 127]],
         [RawMidi.mk 20 [128, 60, 0]]].flatten.length ∧
      (0 < es.length → send_midi es = some ⟨es.length, 0, es⟩)) :=
  ⟨by decide, by decide,
    encode_batch_order_and_count
      [[RawMidi.mk 10 [144, 60, 127]], [RawMidi.mk 20 [128, 60, 0]]]
      (by decide) (by decide)⟩

/-- Helper: draining ports with no pending messages leaves the batch as is. -/
theorem drainPorts_all_empty (ports : List (List RawMidi)) (acc : List MidiEvent)
    (h : ∀ p ∈ ports, p = []) : drainPorts ports acc = some acc := by
  induction ports with
  | nil => rfl
  | cons p ps ih =>
    have hp := h p (List.mem_cons_self p ps)
    subst hp
    simp only [drainPorts, drainPort]
    exact ih fun q hq => h q (List.mem_cons_of_mem _ hq)

/-- C5: when no MIDI messages are pending on any port, the drained batch has
count 0, `send_midi` makes no `process_events` call, and the whole callback
trace contains only the `process` call. -/
theorem empty_pending_skips_delivery (ports : List (List RawMidi))
    (h : ∀ p ∈ ports, p = []) :
    drainMidi ports = some [] ∧ send_midi [] = none ∧
    callback ports = some [PluginCall.process] := by
  have hd : drainMidi ports = some [] := drainPorts_all_empty ports [] h
  refine ⟨hd, rfl, ?_⟩
  unfold callback
  rw [hd]
  rfl

/-- Witness for C5 with two registered MIDI ports, both without pending
messages. -/
theorem empty_pending_skips_delivery_witness :
    (∀ p ∈ ([[], []] : List (List RawMidi)), p = []) ∧
    (drainMidi [[], []] = some [] ∧ send_midi [] = none ∧
      callback [[], []] = some [PluginCall.process]) :=
  ⟨by decide, empty_pending_skips_delivery [[], []] (by decide)⟩

/-- Helper: the callback trace determined by a successfully drained batch. -/
theorem callback_eq (ports : List (List RawMidi)) (es : List MidiEvent)
    (hd : drainMidi ports = some es) :
    callback ports =
      some ((match send_midi es with
        | some ev => [PluginCall.processEvents ev]
        | none => []) ++ [PluginCall.process]) := by
  unfold callback
  rw [hd]

/-- C6: in every callback trace, `process_events` (event delivery) occurs at
most once, and any delivery occurrence is strictly before every `process`
(buffer processing) occurrence. -/
theorem delivery_precedes_process (ports : List (List RawMidi))
    (tr : List PluginCall) (h : callback ports = some tr) :
    tr.countP (fun c => c.isDeliver) ≤ 1 ∧
    ∀ i j (hi : i < tr.length) (hj : j < tr.length),
      (tr.get ⟨i, hi⟩).isDeliver = true →
      tr.get ⟨j, hj⟩ = PluginCall.process → i < j := by
  cases hdm : drainMidi ports with
  | none =>
    unfold callback at h
    rw [hdm] at h
    exact absurd h (by simp)
  | some es =>
    have htr : tr = (match send_midi es with
        | some ev => [PluginCall.processEvents ev]
        | none => []) ++ [PluginCall.process] := by
      have h2 := callback_eq ports es hdm
      rw [h] at h2
      injection h2
    cases hsm : send_midi es with
    | none =>
      rw [hsm] at htr
      simp only [List.nil_append] at htr
      subst htr
      refine ⟨by decide, ?_⟩
      intro i j hi hj hdel _
      simp only [List.length_cons, List.length_nil] at hi hj
      have hi0 : i = 0 := by omega
      subst hi0
      simp [PluginCall.isDeliver] at hdel
    | some ev =>
      rw [hsm] at htr
      simp only [List.singleton_append] at htr
      subst htr
      refine ⟨?_, ?_⟩
      · simp [List.countP_cons, PluginCall.isDeliver]
      · intro i j hi hj hdel hproc
        simp only [List.length_cons, List.length_nil] at hi hj
        have hj1 : j = 1 := by
          rcases (by omega : j = 0 ∨ j = 1) with h0 | h1
          · subst h0; simp at hproc
          · exact h1
        have hi0 : i = 0 := by
          rcases (by omega : i = 0 ∨ i = 1) with h0 | h1
          · exact h0
          · subst h1; simp [PluginCall.isDeliver] at hdel
        omega

/-- Witness for C6 on a callback with one pending note-on message: the trace
is the delivery call followed by the processing call. -/
theorem delivery_precedes_process_witness :
    callback [[RawMidi.mk 10 [144, 60, 127]]] =
      some [PluginCall.processEvents
              ⟨1, 0, [⟨1, 32, 0, 0, 0, 10, [144, 60, 127], 0, 0, 0, 0, 0⟩]⟩,
            PluginCall.process] ∧
    ([PluginCall.processEvents
        ⟨1, 0, [⟨1, 32, 0, 0, 0, 10, [144, 60, 127], 0, 0, 0, 0, 0⟩]⟩,
      PluginCall.process].countP (fun c => c.isDeliver) ≤ 1 ∧
    ∀ i j (hi : i < ([PluginCall.processEvents
              ⟨1, 0, [⟨1, 32, 0, 0, 0, 10, [144, 60, 127], 0, 0, 0, 0, 0⟩]⟩,
            PluginCall.process] : List PluginCall).length)
        (hj : j < ([PluginCall.processEvents
              ⟨1, 0, [⟨1, 32, 0, 0, 0, 10, [144, 60, 127], 0, 0, 0, 0, 0⟩]⟩,
            PluginCall.process] : List PluginCall).length),
      (([PluginCall.processEvents
              ⟨1, 0, [⟨1, 32, 0, 0, 0, 10, [144, 60, 127], 0, 0, 0, 0, 0⟩]⟩,
            PluginCall.process] : List PluginCall).get ⟨i, hi⟩).isDeliver = true →
      ([PluginCall.processEvents
              ⟨1, 0, [⟨1, 32, 0, 0, 0, 10, [144, 60, 127], 0, 0, 0, 0, 0⟩]⟩,
            PluginCall.process] : List PluginCall).get ⟨j, hj⟩ =
        PluginCall.process → i < j) :=
  ⟨by decide,
    delivery_precedes_process [[RawMidi.mk 10 [144, 60, 127]]]
      [PluginCall.processEvents
          ⟨1, 0, [⟨1, 32, 0, 0, 0, 10, [144, 60, 127], 0, 0, 0, 0, 0⟩]⟩,
        PluginCall.process] (by decide)⟩

/-- C7: at setup, one audio input port is registered per declared plugin
input channel, one audio output port per declared output channel, and the
number of MIDI input endpoints is the declared `midi_inputs` count plus the
`extra_midi_in` argument, hence at least the declared count when the extra
is non-negative. -/
theorem ports_match_declared_channels (info : PluginInfo) (extra : Int)
    (hin : 0 ≤ info.inputs) (hout : 0 ≤ info.outputs)
    (hmi : 0 ≤ info.midi_inputs) (hx : 0 ≤ extra)
    (hsum : info.midi_inputs + extra < 2 ^ 31) :
    (num_input_ports info : Int) = info.inputs ∧
    (num_output_ports info : Int) = info.outputs ∧
    ∃ n, num_midi_input_ports info extra = some n ∧
      (n : Int) = info.midi_inputs + extra ∧
      rustRangeLen info.midi_inputs ≤ n := by
  refine ⟨Int.toNat_of_nonneg hin, Int.toNat_of_nonneg hout, ?_⟩
  have hnn : 0 ≤ info.midi_inputs + extra := by omega
  refine ⟨(info.midi_inputs + extra).toNat, ?_, Int.toNat_of_nonneg hnn, ?_⟩
  · unfold num_midi_input_ports i32_add
    rw [if_pos ⟨by omega, hsum⟩]
    rfl
  · unfold rustRangeLen
    omega

/-- Witness for C7: two declared inputs and outputs, one declared MIDI input
and one extra MIDI input requested. -/
theorem ports_match_declared_channels_witness :
    ((0 : Int) ≤ 2 ∧ (0 : Int) ≤ 2 ∧ (0 : Int) ≤ 1 ∧ (0 : Int) ≤ 1 ∧
      (1 : Int) + 1 < 2 ^ 31) ∧
    ((num_input_ports ⟨2, 2, 1⟩ : Int) = 2 ∧
     (num_output_ports ⟨2, 2, 1⟩ : Int) = 2 ∧
     ∃ n, num_midi_input_ports ⟨2, 2, 1⟩ 1 = some n ∧
       (n : Int) = 1 + 1 ∧ rustRangeLen 1 ≤ n) :=
  ⟨⟨by decide, by decide, by decide, by decide, by decide⟩,
    ports_match_declared_channels ⟨2, 2, 1⟩ 1 (by decide) (by decide)
      (by decide) (by decide) (by decide)⟩

/-- C10: for any `extra_midi_in`, port registration succeeds and the number
of MIDI input ports is `midi_inputs + extra_midi_in` when that sum is
positive, and zero otherwise; a negative `extra_midi_in` silently yields
fewer endpoints than declared, with no setup error. -/
theorem midi_port_count_clamped (info : PluginInfo) (extra : Int)
    (hlo : -(2 ^ 31) ≤ info.midi_inputs + extra)
    (hhi : info.midi_inputs + extra < 2 ^ 31) :
    ∃ n, num_midi_input_ports info extra = some n ∧
      (0 < info.midi_inputs + extra → (n : Int) = info.midi_inputs + extra) ∧
      (info.midi_inputs + extra ≤ 0 → n = 0) := by
  refine ⟨(info.midi_inputs + extra).toNat, ?_, ?_, ?_⟩
  · unfold num_midi_input_ports i32_add
    rw [if_pos ⟨hlo, hhi⟩]
    rfl
  · intro hpos
    exact Int.toNat_of_nonneg (le_of_lt hpos)
  · intro hle
    omega

/-- Witness for C10: two declared MIDI inputs and `extra_midi_in = -3`, so
zero MIDI ports are registered and setup still succeeds. -/
theorem midi_port_count_clamped_witness :
    (-(2 ^ 31) ≤ (2 : Int) + -3 ∧ (2 : Int) + -3 < 2 ^ 31) ∧
    (∃ n, num_midi_input_ports ⟨0, 0, 2⟩ (-3) = some n ∧
      ((0 : Int) < 2 + -3 → (n : Int) = 2 + -3) ∧
      ((2 : Int) + -3 ≤ 0 → n = 0)) :=
  ⟨⟨by decide, by decide⟩,
    midi_port_count_clamped ⟨0, 0, 2⟩ (-3) (by decide) (by decide)⟩

/-- Helper: a push never shrinks the allocation. -/
theorem RustVec.cap_le_push_cap (v : RustVec) : v.cap ≤ v.push.cap := by
  unfold RustVec.push
  by_cases h : v.len < v.cap
  · simp [h]
  · simp only [h, if_false]
    omega

/-- Helper: repeated pushes never shrink the allocation. -/
theorem RustVec.cap_le_pushN_cap (v : RustVec) (n : Nat) :
    v.cap ≤ (v.pushN n).cap := by
  induction n generalizing v with
  | zero => exact le_refl _
  | succ n ih => exact le_trans (RustVec.cap_le_push_cap v) (ih v.push)

/-- Helper: pushes increment the length one by one. -/
theorem RustVec.pushN_len (v : RustVec) (n : Nat) :
    (v.pushN n).len = v.len + n := by
  induction n generalizing v with
  | zero => rfl
  | succ n ih =>
    have hp : v.push.len = v.len + 1 := by
      unfold RustVec.push
      by_cases h : v.len < v.cap <;> simp [h]
    show (v.push.pushN n).len = v.len + (n + 1)
    rw [ih v.push, hp]
    omega

/-- Helper: a push restores the length-within-capacity invariant. -/
theorem RustVec.push_len_le_cap (v : RustVec) : v.push.len ≤ v.push.cap := by
  unfold RustVec.push
  by_cases h : v.len < v.cap
  · simp only [h, if_true]
    omega
  · simp only [h, if_false]
    omega

/-- Helper: pushes keep the length within capacity. -/
theorem RustVec.pushN_len_le_cap (v : RustVec) (n : Nat) (h : v.len ≤ v.cap) :
    (v.pushN n).len ≤ (v.pushN n).cap := by
  induction n generalizing v with
  | zero => exact h
  | succ n ih => exact ih v.push (RustVec.push_len_le_cap v)

/-- Helper: pushes that fit within spare capacity never reallocate. -/
theorem RustVec.pushN_cap_of_fits (v : RustVec) (n : Nat)
    (h : v.len + n ≤ v.cap) : (v.pushN n).cap = v.cap := by
  induction n generalizing v with
  | zero => rfl
  | succ n ih =>
    have hlt : v.len < v.cap := by omega
    have hp : v.push = ⟨v.len + 1, v.cap⟩ := by
      unfold RustVec.push
      rw [if_pos hlt]
    show (v.push.pushN n).cap = v.cap
    rw [hp]
    exact ih ⟨v.len + 1, v.cap⟩ (by simpa using by omega)

/-- Helper: a callback never shrinks the batch allocation. -/
theorem cap_le_callbackBatch_cap (v : RustVec) (n : Nat) :
    v.cap ≤ (callbackBatch v n).cap :=
  RustVec.cap_le_pushN_cap v.clear n

/-- Helper: a callback whose count fits the allocation does not reallocate. -/
theorem callbackBatch_cap_of_fits (v : RustVec) (n : Nat) (h : n ≤ v.cap) :
    (callbackBatch v n).cap = v.cap :=
  RustVec.pushN_cap_of_fits v.clear n (by simpa [RustVec.clear] using h)

/-- Helper: after a callback the allocation holds at least its event count. -/
theorem callbackBatch_count_le_cap (v : RustVec) (n : Nat) :
    n ≤ (callbackBatch v n).cap := by
  have hlen : (callbackBatch v n).len = n := by
    unfold callbackBatch
    rw [RustVec.pushN_len]
    simp [RustVec.clear]
  have := RustVec.pushN_len_le_cap v.clear n (by simp [RustVec.clear])
  unfold callbackBatch at hlen ⊢
  omega

/-- Helper: a run of callbacks never shrinks the batch allocation. -/
theorem cap_le_runCallbacks_cap (v : RustVec) (ns : List Nat) :
    v.cap ≤ (runCallbacks v ns).cap := by
  induction ns generalizing v with
  | nil => exact le_refl _
  | cons n ns ih =>
    exact le_trans (cap_le_callbackBatch_cap v n) (ih (callbackBatch v n))

/-- Helper: a left fold of `max` peels its accumulator. -/
theorem foldl_max_acc (l : List Nat) (a : Nat) :
    l.foldl max a = max a (l.foldl max 0) := by
  induction l generalizing a with
  | nil => simp
  | cons x l ih =>
    show l.foldl max (max a x) = max a ((x :: l).foldl max 0)
    rw [ih (max a x)]
    show max (max a x) (l.foldl max 0) = max a (l.foldl max (max 0 x))
    rw [ih (max 0 x)]
    omega

/-- Helper: after a run of callbacks the allocation holds the maximum count. -/
theorem max_le_runCallbacks_cap (v : RustVec) (ns : List Nat) :
    ns.foldl max 0 ≤ (runCallbacks v ns).cap := by
  induction ns generalizing v with
  | nil => exact Nat.zero_le _
  | cons n ns ih =>
    show (n :: ns).foldl max 0 ≤ (runCallbacks (callbackBatch v n) ns).cap
    have h1 : n ≤ (runCallbacks (callbackBatch v n) ns).cap :=
      le_trans (callbackBatch_count_le_cap v n)
        (cap_le_runCallbacks_cap (callbackBatch v n) ns)
    have h2 := ih (callbackBatch v n)
    show List.foldl max (max 0 n) ns ≤ _
    rw [foldl_max_acc]
    omega

/-- C8 counterexample: the claim says the batch backing storage is retained
across callbacks and never freed; in `main.rs` the `events_buffer` is
collected afresh inside `send_midi` and dropped when the call returns, so a
callback delivering one event frees its 3-word events buffer before the
callback even finishes — that storage is not retained across callbacks. -/
theorem events_buffer_freed_every_delivery :
    AllocEvent.free 3 ∈
      (send_midi_main
        [⟨1, 32, 0, 0, 0, 10, [144, 60, 127], 0, 0, 0, 0, 0⟩]).2 := by
  decide

/-- C8 (amended): the retained batch storage (`midi_events` in both drivers,
`events_buffer` in `vst_host.rs`) is never freed or shrunk across a run of
callbacks, and a further callback whose event count is at most the maximum
of the previous counts leaves its capacity exactly unchanged (no
reallocation in steady state); the `events_buffer` of `main.rs` is instead
allocated afresh and freed on every non-empty delivery (a per-callback
allocation). -/
theorem steady_state_no_realloc_scoped (v : RustVec) (ns : List Nat) (n : Nat)
    (es : List MidiEvent) (h : n ≤ ns.foldl max 0) (hne : 0 < es.length) :
    (v.cap ≤ (runCallbacks v ns).cap ∧
      (callbackBatch (runCallbacks v ns) n).cap = (runCallbacks v ns).cap) ∧
    (send_midi_main es).2 =
      [AllocEvent.alloc (2 + es.length), AllocEvent.free (2 + es.length)] := by
  refine ⟨⟨cap_le_runCallbacks_cap v ns,
    callbackBatch_cap_of_fits (runCallbacks v ns) n
      (le_trans h (max_le_runCallbacks_cap v ns))⟩, ?_⟩
  unfold send_midi_main
  rw [if_pos hne]

/-- Witness for the amended C8: an empty vector, two callbacks with 2 then 1
events, a third callback with 2 events (within the previous maximum), and a
one-event delivery on the `main.rs` path. -/
theorem steady_state_no_realloc_scoped_witness :
    2 ≤ [2, 1].foldl max 0 ∧
    0 < ([⟨1, 32, 0, 0, 0, 10, [144, 60, 127], 0, 0, 0, 0, 0⟩] :
          List MidiEvent).length ∧
    (((RustVec.mk 0 0).cap ≤ (runCallbacks ⟨0, 0⟩ [2, 1]).cap ∧
       (callbackBatch (runCallbacks ⟨0, 0⟩ [2, 1]) 2).cap =
         (runCallbacks ⟨0, 0⟩ [2, 1]).cap) ∧
     (send_midi_main
        [⟨1, 32, 0, 0, 0, 10, [144, 60, 127], 0, 0, 0, 0, 0⟩]).2 =
       [AllocEvent.alloc 3, AllocEvent.free 3]) :=
  ⟨by decide, by decide,
    steady_state_no_realloc_scoped ⟨0, 0⟩ [2, 1] 2
      [⟨1, 32, 0, 0, 0, 10, [144, 60, 127], 0, 0, 0, 0, 0⟩]
      (by decide) (by decide)⟩

/-- C9: within capacity, `bind` stores the supplied channel views and leaves
the sample data untouched; binding a second time with the same channels
returns the very same state and buffer handle, so a single `process` after a
double bind produces exactly the output of a single bind followed by
`process`. -/
theorem bind_idempotent_no_side_effects (hb : HostBuffer)
    (ins outs : List (List Int)) (plug : List (List Int) → List (List Int))
    (hin : ins.length ≤ hb.input_capacity)
    (hout : outs.length ≤ hb.output_capacity) :
    ∃ hb1 buf, hb.bind ins outs = some (hb1, buf) ∧
      hb1.bind ins outs = some (hb1, buf) ∧
      buf.inputs = ins ∧ buf.outputs = outs ∧
      processPlugin plug buf = plug ins := by
  refine ⟨⟨hb.input_capacity, hb.output_capacity, ins, outs⟩, ⟨ins, outs⟩,
    ?_, ?_, rfl, rfl, rfl⟩
  · unfold HostBuffer.bind
    rw [if_pos ⟨hin, hout⟩]
  · unfold HostBuffer.bind
    rw [if_pos ⟨hin, hout⟩]

/-- Witness for C9: one input and one output channel within capacity, with a
pass-through plugin. -/
theorem bind_idempotent_no_side_effects_witness :
    ([[3]] : List (List Int)).length ≤ 1 ∧
    ([[0]] : List (List Int)).length ≤ 1 ∧
    (∃ hb1 buf,
      (HostBuffer.mk 1 1 [] []).bind [[3]] [[0]] = some (hb1, buf) ∧
      hb1.bind [[3]] [[0]] = some (hb1, buf) ∧
      buf.inputs = [[3]] ∧ buf.outputs = [[0]] ∧
      processPlugin (fun i => i) buf = (fun i => i) [[3]]) :=
  ⟨by decide, by decide,
    bind_idempotent_no_side_effects ⟨1, 1, [], []⟩ [[3]] [[0]] (fun i => i)
      (by decide) (by decide)⟩
